import Mathlib

/-!
Shallow embedding of the pixeldriller ROI-extraction and zonal-statistics
engine (src/pixdrill), over exact rational arithmetic.  Geometry follows
image_reader.py, the statistics store follows drillstats.py, and the
per-item driller follows drillpoints.py.  Coordinate transformation between
spatial reference systems is an external collaborator and is passed in as a
function parameter where the source calls into it.
-/

namespace PixDrill

/-- Image grid metadata, as held by ImageInfo (image_reader.py).
`x_min`/`y_max` are the map coordinates of the top-left corner, `x_res` and
`y_res` the (positive) pixel sizes, matching a north-up geotransform
`(x_min, x_res, 0, y_max, 0, -y_res)`; `ncols`/`nrows` the image size. -/
structure ImgGrid where
  x_min : ℚ
  x_res : ℚ
  y_max : ℚ
  y_res : ℚ
  ncols : ℤ
  nrows : ℤ
deriving Repr, DecidableEq

/-- ImageReader.wld2pix: map coordinates to (fractional) pixel coordinates,
the inverse of the north-up geotransform. -/
def wld2pix (g : ImgGrid) (geox geoy : ℚ) : ℚ × ℚ :=
  ((geox - g.x_min) / g.x_res, (g.y_max - geoy) / g.y_res)

/-- ImageReader.pix2wld: pixel coordinates to map coordinates via the
north-up geotransform. -/
def pix2wld (g : ImgGrid) (x y : ℚ) : ℚ × ℚ :=
  (g.x_min + x * g.x_res, g.y_max - y * g.y_res)

/-- The tuple returned by ImageReader.get_pix_window. -/
structure PixWin where
  xoff : ℤ
  yoff : ℤ
  win_xsize : ℤ
  win_ysize : ℤ
deriving Repr, DecidableEq

/-- Source intermediate `ul_px = math.floor(wld2pix(c_x - buffer, ...))`:
the pre-clip pixel x of the ROI's left edge. -/
def preUlPx (g : ImgGrid) (c_x b : ℚ) : ℤ := ⌊(wld2pix g (c_x - b) 0).1⌋

/-- Source intermediate `lr_px = math.ceil(wld2pix(c_x + buffer, ...))`:
the pre-clip pixel x just past the ROI's right edge. -/
def preLrPx (g : ImgGrid) (c_x b : ℚ) : ℤ := ⌈(wld2pix g (c_x + b) 0).1⌉

/-- Source intermediate `ul_py = math.floor(wld2pix(..., c_y + buffer))`:
the pre-clip pixel y of the ROI's top edge. -/
def preUlPy (g : ImgGrid) (c_y b : ℚ) : ℤ := ⌊(wld2pix g 0 (c_y + b)).2⌋

/-- Source intermediate `lr_py = math.ceil(wld2pix(..., c_y - buffer))`:
the pre-clip pixel y just past the ROI's bottom edge. -/
def preLrPy (g : ImgGrid) (c_y b : ℚ) : ℤ := ⌈(wld2pix g 0 (c_y - b)).2⌉

/-- ImageReader.get_pix_window (image_reader.py lines 386-468): resolve the
point's ROI (centre `c_x, c_y` in the image's CRS, buffer already
normalized to the image's units) to an integer pixel window, clipping
against the image extents.  The pre-clip corner pixels are the `preUlPx`
(etc.) values above; the clipping is the source's if/elif pair per axis. -/
def get_pix_window (g : ImgGrid) (c_x c_y buffer : ℚ) : PixWin :=
  if 0 < buffer then
    let ul_px := preUlPx g c_x buffer
    let ul_py := preUlPy g c_y buffer
    let lr_px := preLrPx g c_x buffer
    let lr_py := preLrPy g c_y buffer
    let win_xsize := lr_px - ul_px
    let win_ysize := lr_py - ul_py
    -- Reduce the window size if it straddles the image extents
    -- (source: an if/elif pair per axis, updating (ul_px, win_xsize) and
    -- (ul_py, win_ysize)).
    let xclip : ℤ × ℤ :=
      if ul_px < 0 then (0, win_xsize + ul_px)
      else if ul_px + win_xsize > g.ncols then (ul_px, g.ncols - ul_px)
      else (ul_px, win_xsize)
    let yclip : ℤ × ℤ :=
      if ul_py < 0 then (0, win_ysize + ul_py)
      else if ul_py + win_ysize ≥ g.nrows then (ul_py, g.nrows - ul_py)
      else (ul_py, win_ysize)
    ⟨xclip.1, yclip.1, xclip.2, yclip.2⟩
  else
    -- The ROI is a singular point; extract the containing pixel unless the
    -- point is outside the image's extents.
    let cp := wld2pix g c_x c_y
    let ul_px : ℤ := ⌊cp.1⌋
    let ul_py : ℤ := ⌊cp.2⌋
    if 0 ≤ ul_px ∧ ul_px ≤ g.ncols ∧ 0 ≤ ul_py ∧ ul_py ≤ g.nrows then
      ⟨ul_px, ul_py, 1, 1⟩
    else
      ⟨ul_px, ul_py, 0, 0⟩

/-- The ROI box (centre ± buffer) does not meet the image's extents box. -/
def roiOutside (g : ImgGrid) (c_x c_y b : ℚ) : Prop :=
  c_x + b < g.x_min ∨ g.x_min + g.ncols * g.x_res < c_x - b ∨
    g.y_max < c_y - b ∨ c_y + b < g.y_max - g.nrows * g.y_res

/-- drillpoints.ROI_SHP_SQUARE. -/
def ROI_SHP_SQUARE : String := "square"

/-- drillpoints.ROI_SHP_CIRCLE. -/
def ROI_SHP_CIRCLE : String := "circle"

/-- A numpy masked array of shape (bands, rows, cols): parallel data and
mask grids, indexed [band][row][col]. -/
structure MaskedArr where
  data : List (List (List ℚ))
  mask : List (List (List Bool))
deriving Repr, DecidableEq

/-- numpy `.size`: the number of elements of the data array. -/
def MaskedArr.size (a : MaskedArr) : ℕ :=
  (a.data.map (fun band => (band.map List.length).sum)).sum

/-- image_reader.ArrayInfo: one channel's masked array plus provenance.
`arr` is the source's `data` attribute (the masked array). -/
structure ArrInfo where
  arr : MaskedArr
  asset_id : Option String
  xoff : ℤ
  yoff : ℤ
  win_xsize : ℤ
  win_ysize : ℤ
  ulx : ℚ
  uly : ℚ
  lrx : ℚ
  lry : ℚ
  x_res : ℚ
  y_res : ℚ
deriving Repr, DecidableEq

/-- ArrayInfo.isempty: True when the data array contains no elements. -/
def ArrInfo.isempty (ai : ArrInfo) : Bool := ai.arr.size = 0

/-- image_reader.ImageReaderError, split by the raising site. -/
inductive ImageReaderErr where
  | insufficientPixels
  | unknownShape
deriving Repr, DecidableEq

/-- The per-band null value actually applied by read_roi and
mask_roi_shape: the source computes
`ignore_val if ignore_val else self.info.nodataval[idx]`, a truthiness
test, so an explicit override of 0 falls back to the band's native
value just as None does. -/
def effNodata (ignore_val : Option ℚ) (native : Option ℚ) : Option ℚ :=
  match ignore_val with
  | some v => if v = 0 then native else some v
  | none => native

/-- The corner test of mask_roi_shape's inner `outside` helper: is the
(lower, right) corner of pixel (row i, col j) strictly outside the circle
of centre (c_x, c_y) and the given radius?  The source builds
`ys = uly - (mgrid row index) * y_res` and `xs = ulx + (mgrid col
index) * x_res` over the whole window at once; here the test is per
pixel, and the source's squares `**2` are written as products so that the
test evaluates by kernel reduction. -/
def outsideCorner (ai : ArrInfo) (c_x c_y radius : ℚ)
    (lower right i j : ℕ) : Bool :=
  let ys : ℚ := ai.uly - ((i + lower : ℕ) : ℚ) * ai.y_res
  let xs : ℚ := ai.ulx + ((j + right : ℕ) : ℚ) * ai.x_res
  decide ((ys - c_y) * (ys - c_y) + (xs - c_x) * (xs - c_x) > radius * radius)

/-- mask_roi_shape's `px_outside`: a pixel is outside the circle when all
four of its corners are outside. -/
def pxOutside (ai : ArrInfo) (c_x c_y radius : ℚ) (i j : ℕ) : Bool :=
  outsideCorner ai c_x c_y radius 0 0 i j &&
    outsideCorner ai c_x c_y radius 0 1 i j &&
    outsideCorner ai c_x c_y radius 1 0 i j &&
    outsideCorner ai c_x c_y radius 1 1 i j

/-- ImageReader.mask_roi_shape (image_reader.py lines 470-557).  The
point's centre and radius are already transformed into the image's CRS
(the source obtains them from the transform collaborator); `nodataval` is
`self.info.nodataval`.  The result pairs the state of the ArrayInfo after
the call with the exception raised, if any; the source raises before any
mutation.  Writing a `None` null value into the numeric array (only
reachable when a band has no native null and no truthy override) is not
representable in a numeric grid; that write keeps the old cell value here,
and no theorem below depends on it. -/
def mask_roi_shape (shape : String) (c_x c_y radius : ℚ)
    (nodataval : List (Option ℚ)) (ignore_val : Option ℚ) (ai : ArrInfo) :
    ArrInfo × Option ImageReaderErr :=
  if shape = ROI_SHP_SQUARE then
    -- Do nothing. The data is already the correct shape.
    (ai, none)
  else if shape = ROI_SHP_CIRCLE then
    if ai.arr.size < 5 then (ai, some .insufficientPixels)
    else
      let newData := ai.arr.data.mapIdx fun idx band =>
        let nodata_val := effNodata ignore_val (nodataval.getD idx none)
        band.mapIdx fun i row => row.mapIdx fun j v =>
          if pxOutside ai c_x c_y radius i j then
            match nodata_val with
            | some nv => nv
            | none => v
          else v
      let newMask := ai.arr.mask.map fun band =>
        band.mapIdx fun i row => row.mapIdx fun j m =>
          if pxOutside ai c_x c_y radius i j then true else m
      ({ ai with arr := ⟨newData, newMask⟩ }, none)
  else (ai, some .unknownShape)

/-- The band-reading loop of ImageReader.read_roi: when the resolved
window `w` is non-empty, read every band through `readBand` (standing for
`GetRasterBand(b).ReadAsArray`) and build the per-band null mask from the
effective null value; otherwise produce the empty masked array
`numpy.ma.masked_array([], mask=True)`. -/
def readWindow (raster_count : ℕ)
    (readBand : ℕ → ℤ → ℤ → ℤ → ℤ → List (List ℚ))
    (nodataval : List (Option ℚ)) (ignore_val : Option ℚ)
    (w : PixWin) : MaskedArr :=
  if 0 < w.win_xsize ∧ 0 < w.win_ysize then
    let bands := (List.range raster_count).map fun i =>
      let b_arr := readBand (i + 1) w.xoff w.yoff w.win_xsize w.win_ysize
      let nodata_val := effNodata ignore_val (nodataval.getD i none)
      let mask := match nodata_val with
        | none => b_arr.map fun row => row.map fun _ => false
        | some nv => b_arr.map fun row => row.map fun v => decide (v = nv)
      (b_arr, mask)
    ⟨bands.map Prod.fst, bands.map Prod.snd⟩
  else
    ⟨[], []⟩

/-- ImageReader.read_roi (image_reader.py lines 303-384).  `readBand b ...`
stands for `dataset.GetRasterBand(b).ReadAsArray(xoff, yoff, w, h)`, the
raster-access collaborator; `raster_count` and `nodataval` come from
`self.info`.  The result pairs the produced ArrayInfo (the state after the
call) with the exception raised, if any. -/
def read_roi (g : ImgGrid) (raster_count : ℕ)
    (readBand : ℕ → ℤ → ℤ → ℤ → ℤ → List (List ℚ))
    (nodataval : List (Option ℚ)) (asset_id : Option String)
    (shape : String) (c_x c_y buffer : ℚ) (ignore_val : Option ℚ) :
    ArrInfo × Option ImageReaderErr :=
  let w := get_pix_window g c_x c_y buffer
  -- Coords of the upper-left pixel's upper-left corner,
  -- and of the lower-right pixel's upper-left corner.
  let ul := pix2wld g w.xoff w.yoff
  let lr := pix2wld g (w.xoff + w.win_xsize) (w.yoff + w.win_ysize)
  let m_arr := readWindow raster_count readBand nodataval ignore_val w
  let arr_info : ArrInfo :=
    ⟨m_arr, asset_id, w.xoff, w.yoff, w.win_xsize, w.win_ysize,
      ul.1, ul.2, lr.1, lr.2, g.x_res, g.y_res⟩
  -- Only mask pixels outside the ROI if there are sufficient pixels.
  if 4 < arr_info.arr.size then
    mask_roi_shape shape c_x c_y buffer nodataval ignore_val arr_info
  else
    (arr_info, none)

/-- C1 counterexample input: a 10×10 unit-pixel grid with origin (0, 0). -/
def c1Grid : ImgGrid := ⟨0, 1, 0, 1, 10, 10⟩

end PixDrill

open PixDrill in
/-- C1: the claim states that the pixel window returned by
ImageReader.get_pix_window always has non-negative x and y offsets.  This is
false: for a point with buffer 0 whose centre lies left of and above the
grid, the returned window is (xoff, yoff, w, h) = (-1, -1, 0, 0), with a
negative x offset. -/
theorem C1_counterexample :
    (get_pix_window c1Grid (-1/2) (1/2) 0).xoff < 0 := by
  norm_num [get_pix_window, wld2pix, c1Grid]

open PixDrill in
/-- C1 (amended): for buffer > 0 the offsets are non-negative; the window
does not extend past (ncols, nrows) on an axis unless the pre-clip window
extends beyond both opposite image edges on that axis; and if the ROI box
lies entirely outside the image's extents then the returned width or height
is ≤ 0 (possibly negative, and possibly only one of the two).  For
buffer ≤ 0 the window is a single pixel with non-negative offsets, or has
width = height = 0; it is empty whenever the centre lies left of or above
the grid, or beyond its right or bottom edge by more than one pixel. -/
theorem C1_amended (g : ImgGrid) (c_x c_y b : ℚ)
    (hx : 0 < g.x_res) (hy : 0 < g.y_res)
    (hc : 0 ≤ g.ncols) (hr : 0 ≤ g.nrows) :
    (0 < b →
      0 ≤ (get_pix_window g c_x c_y b).xoff ∧
      0 ≤ (get_pix_window g c_x c_y b).yoff ∧
      (¬(preUlPx g c_x b < 0 ∧ g.ncols < preLrPx g c_x b) →
        (get_pix_window g c_x c_y b).xoff +
          (get_pix_window g c_x c_y b).win_xsize ≤ g.ncols) ∧
      (¬(preUlPy g c_y b < 0 ∧ g.nrows < preLrPy g c_y b) →
        (get_pix_window g c_x c_y b).yoff +
          (get_pix_window g c_x c_y b).win_ysize ≤ g.nrows) ∧
      (roiOutside g c_x c_y b →
        (get_pix_window g c_x c_y b).win_xsize ≤ 0 ∨
          (get_pix_window g c_x c_y b).win_ysize ≤ 0)) ∧
    (b ≤ 0 →
      ((get_pix_window g c_x c_y b).win_xsize = 1 ∧
        (get_pix_window g c_x c_y b).win_ysize = 1 ∧
        0 ≤ (get_pix_window g c_x c_y b).xoff ∧
        0 ≤ (get_pix_window g c_x c_y b).yoff) ∨
      ((get_pix_window g c_x c_y b).win_xsize = 0 ∧
        (get_pix_window g c_x c_y b).win_ysize = 0)) := by
  constructor
  · intro hb
    rw [get_pix_window, if_pos hb]
    have hux : preUlPx g c_x b ≤ preLrPx g c_x b := by
      refine (Int.floor_le_floor ?_).trans (Int.floor_le_ceil _)
      exact div_le_div_of_nonneg_right (by linarith) hx.le
    have huy : preUlPy g c_y b ≤ preLrPy g c_y b := by
      refine (Int.floor_le_floor ?_).trans (Int.floor_le_ceil _)
      exact div_le_div_of_nonneg_right (by linarith) hy.le
    refine ⟨?_, ?_, ?_, ?_, ?_⟩
    · dsimp only; split_ifs <;> simp <;> omega
    · dsimp only; split_ifs <;> simp <;> omega
    · intro hno; dsimp only; split_ifs <;> simp <;> omega
    · intro hno; dsimp only; split_ifs <;> simp <;> omega
    · intro hout
      rcases hout with h | h | h | h
      · -- ROI entirely left of the image
        left
        have h2 : preLrPx g c_x b ≤ 0 := by
          refine Int.ceil_le.2 ?_
          simp only [wld2pix, Int.cast_zero]
          exact (div_neg_of_neg_of_pos (by linarith) hx).le
        dsimp only; split_ifs <;> simp <;> omega
      · -- ROI entirely right of the image
        left
        have hulq : (g.ncols : ℚ) < (wld2pix g (c_x - b) 0).1 := by
          simp only [wld2pix]
          rw [lt_div_iff₀ hx]
          linarith
        have h1 : g.ncols ≤ preUlPx g c_x b := Int.le_floor.2 hulq.le
        have h2 : g.ncols < preLrPx g c_x b := by
          refine Int.lt_ceil.2 (lt_of_lt_of_le hulq ?_)
          simp only [wld2pix]
          exact div_le_div_of_nonneg_right (by linarith) hx.le
        dsimp only; split_ifs <;> simp <;> omega
      · -- ROI entirely above the image
        right
        have h2 : preLrPy g c_y b ≤ 0 := by
          refine Int.ceil_le.2 ?_
          simp only [wld2pix, Int.cast_zero]
          exact (div_neg_of_neg_of_pos (by linarith) hy).le
        dsimp only; split_ifs <;> simp <;> omega
      · -- ROI entirely below the image
        right
        have hulq : (g.nrows : ℚ) < (wld2pix g 0 (c_y + b)).2 := by
          simp only [wld2pix]
          rw [lt_div_iff₀ hy]
          linarith
        have h1 : g.nrows ≤ preUlPy g c_y b := Int.le_floor.2 hulq.le
        have h2 : g.nrows < preLrPy g c_y b := by
          refine Int.lt_ceil.2 (lt_of_lt_of_le hulq ?_)
          simp only [wld2pix]
          exact div_le_div_of_nonneg_right (by linarith) hy.le
        dsimp only; split_ifs <;> simp <;> omega
  · intro hb
    rw [get_pix_window, if_neg (not_lt.2 hb)]
    dsimp only
    split_ifs with h
    · exact Or.inl ⟨rfl, rfl, h.1, h.2.2.1⟩
    · exact Or.inr ⟨rfl, rfl⟩

open PixDrill in
/-- C1 witness: the amended theorem applied at a concrete in-bounds input. -/
theorem C1_witness :
    0 ≤ (get_pix_window c1Grid 5 (-5) 2).xoff :=
  ((C1_amended c1Grid 5 (-5) 2 (by norm_num [c1Grid]) (by norm_num [c1Grid])
    (by norm_num [c1Grid]) (by norm_num [c1Grid])).1 (by norm_num)).1

namespace PixDrill

/-- C2 failing input: a single-band 3×3 window of 5s at pixel origin, bounding
box (0, 3)–(3, 0), unit pixels; no pixel masked yet. -/
def c2Ai : ArrInfo :=
  { arr := ⟨[[[5, 5, 5], [5, 5, 5], [5, 5, 5]]],
      [[[false, false, false], [false, false, false],
        [false, false, false]]]⟩
    asset_id := none
    xoff := 0, yoff := 0, win_xsize := 3, win_ysize := 3
    ulx := 0, uly := 3, lrx := 3, lry := 0, x_res := 1, y_res := 1 }

end PixDrill

open PixDrill in
/-- C2: the claim says every excluded pixel is set to the explicit override
null value when one is given.  The code tests the override for truthiness,
so the explicit override 0 is ignored: with a circle of radius 1/2 centred
at (3/2, 3/2) every pixel of `c2Ai` is excluded (all four corners lie
strictly outside the circle), and with override `some 0` and native band
null 7 every excluded cell is written as 7 — the band's native null — not
the override 0. -/
theorem C2_eval :
    (mask_roi_shape ROI_SHP_CIRCLE (3/2) (3/2) (1/2) [some 7] (some 0)
        c2Ai).1.arr =
      ⟨[[[7, 7, 7], [7, 7, 7], [7, 7, 7]]],
        [[[true, true, true], [true, true, true], [true, true, true]]]⟩ ∧
      (7 : ℚ) ≠ 0 := by
  refine ⟨?_, by norm_num⟩
  norm_num [mask_roi_shape, c2Ai, ROI_SHP_CIRCLE, ROI_SHP_SQUARE,
    MaskedArr.size, List.mapIdx_cons, List.mapIdx_nil, pxOutside,
    outsideCorner, effNodata, List.getD]
  rw [if_neg (by decide)]

open PixDrill in
/-- C8: mask_roi_shape fails with the insufficient-pixels error exactly when
the footprint is circular and the record's array holds at most 4 elements;
a square footprint never fails; and on failure the record (data and mask)
is returned unchanged — the check precedes any mutation. -/
theorem C8_insufficient (shape : String) (c_x c_y radius : ℚ)
    (nodataval : List (Option ℚ)) (ignore_val : Option ℚ) (ai : ArrInfo)
    (hs : shape = ROI_SHP_SQUARE ∨ shape = ROI_SHP_CIRCLE) :
    ((mask_roi_shape shape c_x c_y radius nodataval ignore_val ai).2 =
        some ImageReaderErr.insufficientPixels ↔
      shape = ROI_SHP_CIRCLE ∧ ai.arr.size ≤ 4) ∧
    (shape = ROI_SHP_SQUARE →
      (mask_roi_shape shape c_x c_y radius nodataval ignore_val ai).2 =
        none) ∧
    (∀ e, (mask_roi_shape shape c_x c_y radius nodataval ignore_val ai).2 =
        some e →
      (mask_roi_shape shape c_x c_y radius nodataval ignore_val ai).1 = ai) := by
  rcases hs with h | h <;> subst h
  · have e : mask_roi_shape ROI_SHP_SQUARE c_x c_y radius nodataval
        ignore_val ai = (ai, none) := by
      rw [mask_roi_shape, if_pos rfl]
    have hne : ¬ (ROI_SHP_SQUARE = ROI_SHP_CIRCLE) := by decide
    rw [e]
    exact ⟨⟨fun h => Option.noConfusion h, fun h => absurd h.1 hne⟩,
      fun _ => rfl, fun e he => Option.noConfusion he⟩
  · have hne : ¬ (ROI_SHP_CIRCLE = ROI_SHP_SQUARE) := by decide
    by_cases h5 : ai.arr.size < 5
    · have e : mask_roi_shape ROI_SHP_CIRCLE c_x c_y radius nodataval
          ignore_val ai = (ai, some ImageReaderErr.insufficientPixels) := by
        rw [mask_roi_shape, if_neg hne, if_pos rfl, if_pos h5]
      rw [e]
      exact ⟨⟨fun _ => ⟨rfl, by omega⟩, fun _ => rfl⟩,
        fun hsq => absurd hsq hne, fun e _ => rfl⟩
    · have e2 : (mask_roi_shape ROI_SHP_CIRCLE c_x c_y radius nodataval
          ignore_val ai).2 = none := by
        simp only [mask_roi_shape, if_neg hne, if_pos rfl, if_neg h5, if_true]
      rw [e2]
      exact ⟨⟨fun h => Option.noConfusion h, fun h => absurd h.2 (by omega)⟩,
        fun hsq => absurd hsq hne, fun e he => Option.noConfusion he⟩

namespace PixDrill

/-- C8 witness input: a single-band 2×2 record (4 elements). -/
def c8Ai : ArrInfo :=
  { arr := ⟨[[[1, 2], [3, 4]]], [[[false, false], [false, false]]]⟩
    asset_id := none
    xoff := 0, yoff := 0, win_xsize := 2, win_ysize := 2
    ulx := 0, uly := 2, lrx := 2, lry := 0, x_res := 1, y_res := 1 }

end PixDrill

open PixDrill in
/-- C8 witness: the theorem applied to a circular footprint on a 4-element
record yields the insufficient-pixels error. -/
theorem C8_witness :
    (mask_roi_shape ROI_SHP_CIRCLE 1 1 1 [some 0] none c8Ai).2 =
      some ImageReaderErr.insufficientPixels :=
  (C8_insufficient ROI_SHP_CIRCLE 1 1 1 [some 0] none c8Ai
    (Or.inr rfl)).1.mpr ⟨rfl, by decide⟩

open PixDrill in
/-- C10: in read_roi the circular mask is applied only when the freshly
read array has strictly more than 4 elements, so the insufficient-pixels
error is unreachable from the reading path (for any footprint string); and
when the rectangular window just read holds at most 4 elements a
circular-footprint point receives exactly the same unmasked record a
square-footprint point would. -/
theorem C10_guard (g : ImgGrid) (raster_count : ℕ)
    (readBand : ℕ → ℤ → ℤ → ℤ → ℤ → List (List ℚ))
    (nodataval : List (Option ℚ)) (asset_id : Option String)
    (c_x c_y buffer : ℚ) (ignore_val : Option ℚ) :
    (∀ shape, (read_roi g raster_count readBand nodataval asset_id shape
        c_x c_y buffer ignore_val).2 ≠
      some ImageReaderErr.insufficientPixels) ∧
    ((read_roi g raster_count readBand nodataval asset_id ROI_SHP_SQUARE
        c_x c_y buffer ignore_val).1.arr.size ≤ 4 →
      read_roi g raster_count readBand nodataval asset_id ROI_SHP_CIRCLE
          c_x c_y buffer ignore_val =
        read_roi g raster_count readBand nodataval asset_id ROI_SHP_SQUARE
          c_x c_y buffer ignore_val) := by
  constructor
  · intro shape
    simp only [read_roi, mask_roi_shape]
    split_ifs
    all_goals try simp
    all_goals omega
  · intro hle
    simp only [read_roi] at hle ⊢
    by_cases h4 : 4 < (readWindow raster_count readBand nodataval ignore_val
        (get_pix_window g c_x c_y buffer)).size
    · rw [if_pos h4] at hle
      rw [if_pos h4, if_pos h4]
      rw [mask_roi_shape, if_pos rfl] at hle
      dsimp only at hle
      exact absurd hle (by omega)
    · rw [if_neg h4, if_neg h4]


namespace PixDrill

/-- C10 witness read oracle: every band read returns a 2×2 block of ones. -/
def c10Read : ℕ → ℤ → ℤ → ℤ → ℤ → List (List ℚ) := fun _ _ _ _ _ => [[1, 1], [1, 1]]

end PixDrill

open PixDrill in
/-- C10 witness: the guard theorem applied at a point whose ROI misses the
grid entirely, so the window read is empty (0 ≤ 4 elements): the circle
read equals the square read. -/
theorem C10_witness :
    read_roi c1Grid 1 c10Read [some 0] none ROI_SHP_CIRCLE 20 20 1 none =
      read_roi c1Grid 1 c10Read [some 0] none ROI_SHP_SQUARE 20 20 1 none :=
  (C10_guard c1Grid 1 c10Read [some 0] none 20 20 1 none).2 (by
    norm_num [read_roi, readWindow, get_pix_window, preUlPx, preUlPy,
      preLrPx, preLrPy, wld2pix, pix2wld, c1Grid, MaskedArr.size,
      mask_roi_shape, ROI_SHP_SQUARE, ROI_SHP_CIRCLE])

namespace PixDrill

/-- The class of a spatial reference system: osr's IsProjected /
IsGeographic split, with a third case for systems that are neither
(e.g. local systems). -/
inductive CrsKind where
  | projected
  | geographic
  | unknownKind
deriving Repr, DecidableEq

/-- A spatial reference system handle: its class plus an identifying
authority code, used only to parameterize the transform collaborator. -/
structure SRef where
  kind : CrsKind
  epsg : ℤ
deriving Repr, DecidableEq

/-- drillpoints.Point, restricted to the fields read by
change_buffer_units and the reading path: location, CRS, derived WGS84
location, buffer value and unit flag, and footprint shape.  The temporal
fields play no role in the claims treated here. -/
structure PointM where
  x : ℚ
  y : ℚ
  sp_ref : SRef
  wgs84_x : ℚ
  wgs84_y : ℚ
  buffer : ℚ
  buffer_degrees : Bool
  shape : String
deriving Repr, DecidableEq

/-- drillpoints.PointError. -/
inductive PointErr where
  | pointError
deriving Repr, DecidableEq

/-- A coordinate-transform collaborator: given source and destination
spatial reference systems and an (x, y) pair, produce the transformed
pair (Point.transform delegates to osr.CoordinateTransformation). -/
def TransformFn : Type := SRef → SRef → ℚ × ℚ → ℚ × ℚ

/-- Point._transformed_buffer (drillpoints.py lines 318-342): offset the
point by the buffer along x, transform both points, and return the
difference of the transformed x coordinates. -/
def transformed_buffer (tr : TransformFn) (x y buffer : ℚ)
    (src dst : SRef) : ℚ :=
  let xn := buffer + x
  let t1 := tr src dst (x, y)
  let t2 := tr src dst (xn, y)
  t2.1 - t1.1

/-- Python `int()` truncation toward zero, used for the UTM zone pick. -/
def pytrunc (q : ℚ) : ℤ := if q < 0 then ⌈q⌉ else ⌊q⌋

/-- Point.change_buffer_units (drillpoints.py lines 239-316): normalize
the buffer distance for the destination spatial reference system,
converting between metres and degrees by re-projecting a synthetic
offset point, choosing a hemisphere-dependent UTM zone when the source
CRS is itself geographic. -/
def change_buffer_units (pt : PointM) (dst : SRef) (tr : TransformFn) :
    Except PointErr ℚ :=
  if !pt.buffer_degrees && decide (dst.kind = CrsKind.geographic) then
    -- Convert buffer units from metres to degrees.
    match pt.sp_ref.kind with
    | .projected =>
      .ok (transformed_buffer tr pt.x pt.y pt.buffer pt.sp_ref dst)
    | .geographic =>
      let epsg :=
        if 0 ≤ pt.wgs84_y then 32600 + pytrunc (pt.wgs84_x / 6) + 31
        else 32700 + pytrunc (pt.wgs84_x / 6) + 31
      let p_sp_ref : SRef := ⟨.projected, epsg⟩
      let pxy := tr pt.sp_ref p_sp_ref (pt.x, pt.y)
      .ok (transformed_buffer tr pxy.1 pxy.2 pt.buffer p_sp_ref dst)
    | .unknownKind => .error .pointError
  else if pt.buffer_degrees && decide (dst.kind = CrsKind.projected) then
    -- Convert buffer units from degrees to metres.
    match pt.sp_ref.kind with
    | .projected =>
      let g_sp_ref : SRef := ⟨.geographic, 4326⟩
      .ok (transformed_buffer tr pt.wgs84_x pt.wgs84_y pt.buffer g_sp_ref dst)
    | .geographic =>
      .ok (transformed_buffer tr pt.x pt.y pt.buffer pt.sp_ref dst)
    | .unknownKind => .error .pointError
  else if !(decide (dst.kind = CrsKind.projected) ||
      decide (dst.kind = CrsKind.geographic)) then
    .error .pointError
  else
    -- The buffer units and destination system are compatible.
    .ok pt.buffer

/-- C9 counterexample point: its own CRS is neither projected nor
geographic, its buffer is in metres. -/
def c9Pt : PointM :=
  { x := 10, y := 20, sp_ref := ⟨.unknownKind, 0⟩, wgs84_x := 10,
    wgs84_y := 20, buffer := 5, buffer_degrees := false,
    shape := ROI_SHP_SQUARE }

/-- A trivial transform collaborator (identity), for concrete inputs. -/
def idTransform : TransformFn := fun _ _ p => p

end PixDrill

open PixDrill in
/-- C9: the claim states that buffer normalization fails with the
unknown-CRS-class error whenever any CRS involved — the point's own or
the target — is neither projected nor geographic.  Counterexample: a
point whose own CRS is of unknown class, with a metre buffer and a
projected target, takes the units-compatible branch and succeeds,
returning the buffer unchanged; the point's CRS class is never examined. -/
theorem C9_counterexample :
    change_buffer_units c9Pt ⟨CrsKind.projected, 32754⟩ idTransform =
        Except.ok 5 ∧
      c9Pt.sp_ref.kind = CrsKind.unknownKind := by
  constructor
  · rfl
  · rfl

open PixDrill in
/-- C9 (amended): change_buffer_units fails with the unknown-CRS-class
error exactly when the target CRS is neither projected nor geographic, or
when a unit conversion is required (linear buffer with geographic target,
or angular buffer with projected target) and the point's own CRS is
neither projected nor geographic; when the units are compatible with the
target, the point's own CRS class is not examined and the call returns a
value.  The embedding is a pure function of the point, so the point's
state is trivially unmodified by a failing call. -/
theorem C9_amended (pt : PointM) (dst : SRef) (tr : TransformFn) :
    (∃ e, change_buffer_units pt dst tr = Except.error e) ↔
      (dst.kind = CrsKind.unknownKind ∨
        (pt.buffer_degrees = false ∧ dst.kind = CrsKind.geographic ∧
          pt.sp_ref.kind = CrsKind.unknownKind) ∨
        (pt.buffer_degrees = true ∧ dst.kind = CrsKind.projected ∧
          pt.sp_ref.kind = CrsKind.unknownKind)) := by
  rw [change_buffer_units]
  rcases hd : dst.kind <;> rcases hs : pt.sp_ref.kind <;>
    rcases hb : pt.buffer_degrees <;>
    simp_all <;>
    exact ⟨PointErr.pointError, trivial⟩

namespace PixDrill

/-- drill.ImageItem or a pystac Item: the two kinds of item the driller
reads.  Only the id (and, for plain images, the filepath) matter here. -/
inductive ItemM where
  | image (filepath : String) (id : String)
  | stac (id : String)
deriving Repr, DecidableEq

/-- The item's id. -/
def ItemM.id : ItemM → String
  | .image _ i => i
  | .stac i => i

/-- drillstats.STATS_RAW. -/
def STATS_RAW : String := "raw"

/-- drillstats.STATS_ARRAYINFO. -/
def STATS_ARRAYINFO : String := "arrayinfo"

/-- drillstats.STATS_MEAN. -/
def STATS_MEAN : String := "mean"

/-- drillstats.STATS_STDEV. -/
def STATS_STDEV : String := "stddev"

/-- drillstats.STATS_COUNT. -/
def STATS_COUNT : String := "count"

/-- drillstats.STATS_COUNTNULL. -/
def STATS_COUNTNULL : String := "countnull"

/-- drillstats.STATS_STD, exactly as the source writes it:
`[STATS_MEAN, STATS_STDEV, STATS_COUNT, STATS_COUNT]` — STATS_COUNT is
listed twice and STATS_COUNTNULL does not appear. -/
def STATS_STD : List String := [STATS_MEAN, STATS_STDEV, STATS_COUNT, STATS_COUNT]

/-- drillstats.ITEM_KEY. -/
def ITEM_KEY : String := "ITEM"

/-- A value stored in a PointStats entry dictionary: the Item reference
under ITEM_KEY, the raw masked-array list under STATS_RAW, the ArrayInfo
list under STATS_ARRAYINFO, a standard statistic's numpy 1-D result
array (one number per channel), or a user statistic's returned value
(modelled as a rational). -/
inductive StatVal where
  | item (it : ItemM)
  | rawList (l : List MaskedArr)
  | infoList (l : List ArrInfo)
  | nums (l : List ℚ)
  | user (v : ℚ)
deriving Repr, DecidableEq

/-- A Python dictionary with string keys, as an insertion-ordered
association list. -/
def Dict (α : Type) : Type := List (String × α)

/-- Dictionary lookup. -/
def dget {α : Type} (d : Dict α) (k : String) : Option α :=
  match d with
  | [] => none
  | p :: rest => if p.1 = k then some p.2 else dget rest k

/-- Dictionary assignment `d[k] = v`: replace in place, or append. -/
def dset {α : Type} (d : Dict α) (k : String) (v : α) : Dict α :=
  match d with
  | [] => [(k, v)]
  | p :: rest => if p.1 = k then (k, v) :: rest else p :: dset rest k v

/-- One item's statistics dictionary (the inner dictionary of
PointStats.item_stats). -/
def Entry : Type := Dict StatVal

/-- PointStats.item_stats: item id → statistics dictionary. -/
def Store : Type := Dict Entry

/-- The clean per-item dictionary {ITEM_KEY: item, STATS_RAW: [],
STATS_ARRAYINFO: []} built by add_data and reset. -/
def cleanStats (item : ItemM) : Entry :=
  [(ITEM_KEY, .item item), (STATS_RAW, .rawList []),
    (STATS_ARRAYINFO, .infoList [])]

/-- PointStats.add_data (drillstats.py lines 96-131): fetch or create the
item's entry, then append the ArrayInfo's masked array to the STATS_RAW
list and the ArrayInfo itself to the STATS_ARRAYINFO list.  A fresh entry
holds empty lists, so the append lands on a list in every state this
module produces; a malformed stored value is replaced by the
one-element list (the source would instead fail on `.append`). -/
def add_data (s : Store) (item : ItemM) (ai : ArrInfo) : Store :=
  let stats := (dget s item.id).getD (cleanStats item)
  let stats := dset stats STATS_RAW
    (match dget stats STATS_RAW with
      | some (.rawList l) => .rawList (l ++ [ai.arr])
      | _ => .rawList [ai.arr])
  let stats := dset stats STATS_ARRAYINFO
    (match dget stats STATS_ARRAYINFO with
      | some (.infoList l) => .infoList (l ++ [ai])
      | _ => .infoList [ai])
  dset s item.id stats

/-- PointStats.reset (drillstats.py lines 258-294): with an item, replace
(or create) that item's entry with the clean dictionary; with none, do so
for every registered item, keeping each entry's stored ITEM_KEY value
(an entry missing ITEM_KEY would raise KeyError in the source; it is kept
absent here and is unreachable from this module's operations). -/
def resetEntry (e : Entry) : Entry :=
  match dget e ITEM_KEY with
  | some v => [(ITEM_KEY, v), (STATS_RAW, StatVal.rawList []),
      (STATS_ARRAYINFO, StatVal.infoList [])]
  | none => [(STATS_RAW, StatVal.rawList []),
      (STATS_ARRAYINFO, StatVal.infoList [])]

def reset (s : Store) (item : Option ItemM) : Store :=
  match item with
  | none => s.map fun p => (p.1, resetEntry p.2)
  | some it => dset s it.id (cleanStats it)

/-- Python truthiness of an optional string argument: None and the empty
string are falsy. -/
def truthy : Option String → Bool
  | none => false
  | some s => !s.isEmpty

/-- The four shapes a PointStats.get_stats call can return: a stored
value, the [] sentinel (standard statistics), the None sentinel (user
statistics), one item's dictionary ({} when the item is unknown), a
per-item dictionary of values-or-sentinels, or the whole store. -/
inductive GetRet where
  | single (v : StatVal)
  | emptyL
  | noneV
  | entry (e : Entry)
  | perItem (d : List (String × GetRet))
  | full (s : Store)

/-- PointStats.get_stats (drillstats.py lines 189-256): the four-way
accessor.  The sentinel used when the requested statistic is absent is []
when the stat name is in STATS_STD and None otherwise. -/
def get_stats (s : Store) (item_id stat_name : Option String) : GetRet :=
  if truthy item_id && truthy stat_name then
    let iid := item_id.getD ""
    let sn := stat_name.getD ""
    let ret0 : GetRet := if sn ∈ STATS_STD then .emptyL else .noneV
    match dget s iid with
    | some stats =>
      match dget stats sn with
      | some v => .single v
      | none => ret0
    | none => ret0
  else if truthy item_id then
    match dget s (item_id.getD "") with
    | some e => .entry e
    | none => .entry []
  else if truthy stat_name then
    let sn := stat_name.getD ""
    .perItem (s.map fun p =>
      (p.1,
        match dget p.2 sn with
        | some v => GetRet.single v
        | none => if sn ∈ STATS_STD then GetRet.emptyL else GetRet.noneV))
  else
    .full s

end PixDrill

namespace PixDrill

/-- The unmasked cell values of a masked array, in array order. -/
def maskedCells (a : MaskedArr) : List ℚ :=
  ((a.data.zip a.mask).map fun bm =>
    ((bm.1.zip bm.2).map fun rm =>
      (rm.1.zip rm.2).filterMap fun vm =>
        if vm.2 then none else some vm.1).flatten).flatten

/-- The number of masked (null) cells, numpy `arr.mask.sum()`. -/
def maskTrueCount (a : MaskedArr) : ℕ :=
  ((a.mask.map fun band =>
    (band.map fun row => (row.filter id).length).sum).sum)

/-- drillstats.std_stat_mean: per input array, the mean of its unmasked
cells.  When every cell is masked numpy yields nan; ℚ division by the
zero count yields 0 here, and no theorem below depends on that value. -/
def std_stat_mean (asset_arrays : List MaskedArr) : List ℚ :=
  asset_arrays.map fun arr =>
    let vals := maskedCells arr
    vals.sum / (vals.length : ℚ)

/-- drillstats.std_stat_stdev computes numpy `arr.std()`, the square root
of the variance of the unmasked cells; ℚ has no square root, so this
models the variance instead, and no theorem below depends on the value. -/
def std_stat_stdev (asset_arrays : List MaskedArr) : List ℚ :=
  asset_arrays.map fun arr =>
    let vals := maskedCells arr
    let m := vals.sum / (vals.length : ℚ)
    (vals.map fun v => (v - m) * (v - m)).sum / (vals.length : ℚ)

/-- drillstats.std_stat_count: per input array, the number of unmasked
cells (numpy `arr.count()`). -/
def std_stat_count (asset_arrays : List MaskedArr) : List ℚ :=
  asset_arrays.map fun arr => ((maskedCells arr).length : ℚ)

/-- drillstats.std_stat_countnull: per input array, the number of masked
cells (numpy `arr.mask.sum()`). -/
def std_stat_countnull (asset_arrays : List MaskedArr) : List ℚ :=
  asset_arrays.map fun arr => (maskTrueCount arr : ℚ)

/-- drillstats.STD_STATS_FUNCS: the mapping from the four standard
statistic names to their functions; `none` models a KeyError lookup. -/
def STD_STATS_FUNCS (name : String) : Option (List MaskedArr → List ℚ) :=
  if name = STATS_MEAN then some std_stat_mean
  else if name = STATS_STDEV then some std_stat_stdev
  else if name = STATS_COUNT then some std_stat_count
  else if name = STATS_COUNTNULL then some std_stat_countnull
  else none

/-- drillstats.check_std_arrays: true when at least one raw array holds
more than one band (`arr.shape[0] > 1`), which makes calc_stats raise
MultibandAssetError. -/
def check_std_arrays_bad (raws : List MaskedArr) : Bool :=
  raws.any fun arr => arr.data.length > 1

/-- The exceptions calc_stats can raise: a KeyError (unknown item id,
missing ITEM_KEY, or a std_stats name that is not a standard statistic)
or drillstats.MultibandAssetError. -/
inductive CalcErr where
  | keyError
  | multibandAsset
deriving Repr, DecidableEq

/-- A user statistic function: called with the entry's current
STATS_ARRAYINFO list, the item, and the point (drill.drill's user_func
signature); its arbitrary return value is modelled as a rational. -/
def UserFunc : Type := List ArrInfo → ItemM → PointM → ℚ

/-- The standard-statistics loop of calc_stats: for each requested name,
look its function up in STD_STATS_FUNCS (stopping with the partial state
on a KeyError) and store the function of the entry's current STATS_RAW
list under the name. -/
def calcStd (e : Entry) (names : List String) : Entry × Option CalcErr :=
  match names with
  | [] => (e, none)
  | n :: rest =>
    match STD_STATS_FUNCS n with
    | none => (e, some .keyError)
    | some f =>
      let raws := match dget e STATS_RAW with
        | some (.rawList l) => l
        | _ => []
      calcStd (dset e n (.nums (f raws))) rest

/-- The user-statistics loop of calc_stats: for each (name, function)
pair, call the function on the entry's current STATS_ARRAYINFO list and
store the returned value under the name. -/
def calcUser (e : Entry) (item : ItemM) (pt : PointM)
    (us : List (String × UserFunc)) : Entry :=
  match us with
  | [] => e
  | (n, f) :: rest =>
    let ainfos := match dget e STATS_ARRAYINFO with
      | some (.infoList l) => l
      | _ => []
    calcUser (dset e n (.user (f ainfos item pt))) item pt rest

/-- PointStats.calc_stats (drillstats.py lines 133-187): look up the
item's entry and its ITEM_KEY (KeyError if absent), and unless `std_stats`
is empty (Python falsy) validate that every raw array is single-band
(MultibandAssetError otherwise), drop STATS_RAW/STATS_ARRAYINFO from the
requested names and run the standard loop; then, unless `user_stats` is
empty, run the user loop.  Returns the store after the call paired with
the exception raised, if any; an exception leaves the partial mutations
in place, as the source's in-place dictionary updates do. -/
def calc_stats (s : Store) (item_id : String) (std_stats : List String)
    (user_stats : List (String × UserFunc)) (pt : PointM) :
    Store × Option CalcErr :=
  match dget s item_id with
  | none => (s, some .keyError)
  | some stats =>
    match dget stats ITEM_KEY with
    | some (.item item) =>
      let (e1, err) :=
        if std_stats ≠ [] then
          let raws := match dget stats STATS_RAW with
            | some (.rawList l) => l
            | _ => []
          if check_std_arrays_bad raws then (stats, some .multibandAsset)
          else
            calcStd stats (std_stats.filter
              fun s_s => s_s ∉ [STATS_RAW, STATS_ARRAYINFO])
        else (stats, none)
      match err with
      | some er => (dset s item_id e1, some er)
      | none =>
        let e2 := if user_stats.isEmpty then e1
          else calcUser e1 item pt user_stats
        (dset s item_id e2, none)
    | _ => (s, some .keyError)

end PixDrill

namespace PixDrill

lemma dget_dset_self {α : Type} (d : Dict α) (k : String) (v : α) :
    dget (dset d k v) k = some v := by
  induction d with
  | nil => simp [dget, dset]
  | cons p rest ih =>
    by_cases h : p.1 = k
    · simp [dset, h, dget]
    · simp [dset, h, dget, ih]

lemma dget_dset_ne {α : Type} (d : Dict α) (k k' : String) (v : α)
    (h : k' ≠ k) : dget (dset d k v) k' = dget d k' := by
  induction d with
  | nil =>
    simp only [dset, dget]
    rw [if_neg fun hh => h hh.symm]
  | cons p rest ih =>
    by_cases hp : p.1 = k
    · subst hp
      simp only [dset, if_pos rfl, dget]
      rw [if_neg fun hh => h hh.symm, if_neg fun hh => h hh.symm]
    · simp only [dset, if_neg hp, dget]
      by_cases hp' : p.1 = k'
      · rw [if_pos hp', if_pos hp']
      · rw [if_neg hp', if_neg hp', ih]

/-- The value stored for statistic `k` of item `iid`. -/
def entryStat (s : Store) (iid k : String) : Option StatVal :=
  (dget s iid).bind fun e => dget e k

lemma dget_calcUser (e : Entry) (item : ItemM) (pt : PointM)
    (us : List (String × UserFunc)) (k : String)
    (hk : ∀ p ∈ us, p.1 ≠ k) :
    dget (calcUser e item pt us) k = dget e k := by
  induction us generalizing e with
  | nil => rfl
  | cons p rest ih =>
    obtain ⟨n, f⟩ := p
    simp only [calcUser]
    rw [ih _ fun q hq => hk q (List.mem_cons_of_mem _ hq)]
    exact dget_dset_ne _ _ _ _ (hk ⟨n, f⟩ (List.mem_cons_self _ _)).symm

end PixDrill

open PixDrill in
/-- C4: resetting the statistics of image identity X (PointStats.reset
with that item — also what a failed read performs) leaves any other
identity Y's whole entry unchanged, and every get_stats lookup keyed by Y
returns the same result as before the reset. -/
theorem C4_reset_isolated (s : Store) (x : ItemM) (yid : String)
    (stat : Option String) (hy : yid ≠ x.id) (hy' : yid ≠ "") :
    dget (reset s (some x)) yid = dget s yid ∧
    get_stats (reset s (some x)) (some yid) stat =
      get_stats s (some yid) stat := by
  have h1 : dget (reset s (some x)) yid = dget s yid := by
    simp only [reset]
    exact dget_dset_ne _ _ _ _ hy
  have ht : truthy (some yid) = true := by
    simp only [truthy, Bool.not_eq_true']
    exact (Bool.eq_false_iff).2 fun hh => hy' ((String.isEmpty_iff yid).1 hh)
  refine ⟨h1, ?_⟩
  by_cases hts : truthy stat = true
  · simp [get_stats, ht, hts, h1]
  · simp [get_stats, ht, hts, h1]

namespace PixDrill

/-- C4 witness data: a store holding statistics for item Y only. -/
def c4Store : Store := [("Y", cleanStats (.stac "Y"))]

end PixDrill

open PixDrill in
/-- C4 witness: resetting item X leaves item Y's lookup unchanged. -/
theorem C4_witness :
    get_stats (reset c4Store (some (.stac "X"))) (some "Y") (some "mean") =
      get_stats c4Store (some "Y") (some "mean") :=
  (C4_reset_isolated c4Store (.stac "X") "Y" (some "mean") (by decide)
    (by decide)).2

open PixDrill in
/-- C5: the claim states get_stats returns the empty-list sentinel for any
absent standard statistic (mean, standard deviation, valid count, null
count).  The source's STATS_STD constant lists STATS_COUNT twice and
omits STATS_COUNTNULL, so an absent 'countnull' — a standard statistic per
STD_STATS_FUNCS and the get_stats docstring — gets the None sentinel,
while an absent 'mean' gets the empty list as documented. -/
theorem C5_eval :
    get_stats ([] : Store) (some "itemX") (some STATS_COUNTNULL) =
        GetRet.noneV ∧
      get_stats ([] : Store) (some "itemX") (some STATS_MEAN) =
        GetRet.emptyL := by
  constructor
  · rfl
  · rfl

namespace PixDrill

/-- C6 input: a 1-band 1×1 masked array holding the value 2. -/
def c6Arr : MaskedArr := ⟨[[[2]]], [[[false]]]⟩

/-- C6 input: the ArrayInfo record carrying `c6Arr`. -/
def c6Ai : ArrInfo :=
  { arr := c6Arr, asset_id := none, xoff := 0, yoff := 0,
    win_xsize := 1, win_ysize := 1, ulx := 0, uly := 1, lrx := 1,
    lry := 0, x_res := 1, y_res := 1 }

/-- C6 input item. -/
def c6Item : ItemM := .stac "item1"

/-- C6 input store: item1 holds one raw array / one array record. -/
def c6Store : Store := add_data [] c6Item c6Ai

/-- C6 user statistic function: ignores its inputs and returns 999. -/
def c6UserFn : UserFunc := fun _ _ _ => 999

end PixDrill

open PixDrill in
/-- C6: the claim states user statistics never overwrite a value stored
under a standard-statistic name.  Nothing enforces that: with
std_stats = [mean] and a user statistic also named "mean", the user loop
overwrites the just-computed standard mean (nums [2]) with the user value
(999). -/
theorem C6_counterexample :
    entryStat (calc_stats c6Store "item1" [STATS_MEAN]
        [(STATS_MEAN, c6UserFn)] c9Pt).1 "item1" STATS_MEAN =
      some (.user 999) ∧
    entryStat (calc_stats c6Store "item1" [STATS_MEAN] [] c9Pt).1
        "item1" STATS_MEAN = some (.nums [2]) ∧
    StatVal.user 999 ≠ StatVal.nums [2] := by
  refine ⟨?_, ?_, by simp⟩
  · norm_num [calc_stats, calcStd, calcUser, STD_STATS_FUNCS, std_stat_mean,
      maskedCells, check_std_arrays_bad, add_data, cleanStats, dget, dset,
      entryStat, STATS_MEAN, STATS_STDEV, STATS_COUNT, STATS_COUNTNULL,
      STATS_RAW, STATS_ARRAYINFO, ITEM_KEY, c6Store, c6Item, c6Ai, c6Arr,
      c6UserFn, ItemM.id]
    simp
  · norm_num [calc_stats, calcStd, calcUser, STD_STATS_FUNCS, std_stat_mean,
      maskedCells, check_std_arrays_bad, add_data, cleanStats, dget, dset,
      entryStat, STATS_MEAN, STATS_STDEV, STATS_COUNT, STATS_COUNTNULL,
      STATS_RAW, STATS_ARRAYINFO, ITEM_KEY, c6Store, c6Item, c6Ai, c6Arr,
      ItemM.id]
    simp

open PixDrill in
/-- C6 (amended): the user-statistics loop writes only under the
user-chosen names, so every key not among them — in particular the
standard-statistic names and the raw-array/array-info keys whenever the
user names avoid them — holds, after calc_stats with user statistics,
exactly the value it held immediately after the standard statistics were
computed (i.e. after the same call without user statistics). -/
theorem C6_amended (s : Store) (item_id : String) (std_stats : List String)
    (user_stats : List (String × UserFunc)) (pt : PointM) (k : String)
    (hk : ∀ p ∈ user_stats, p.1 ≠ k) :
    entryStat (calc_stats s item_id std_stats user_stats pt).1 item_id k =
      entryStat (calc_stats s item_id std_stats [] pt).1 item_id k := by
  rw [calc_stats, calc_stats]
  rcases hg : dget s item_id with _ | stats
  · rfl
  · dsimp only
    rcases hik : dget stats ITEM_KEY with _ | v
    · rfl
    · rcases v with item | l | l | l | q
      case item =>
        dsimp only
        rcases hstd : (if std_stats ≠ [] then
            (if check_std_arrays_bad (match dget stats STATS_RAW with
              | some (.rawList l) => l
              | _ => []) then (stats, some CalcErr.multibandAsset)
            else calcStd stats (std_stats.filter
              fun s_s => s_s ∉ [STATS_RAW, STATS_ARRAYINFO]))
          else (stats, none)) with ⟨e1, err⟩
        rcases err with _ | er
        · dsimp only [List.isEmpty]
          rcases user_stats with _ | ⟨p, rest⟩
          · rfl
          · dsimp only [entryStat]
            rw [dget_dset_self, dget_dset_self]
            simp only [Option.bind_some]
            exact dget_calcUser _ _ _ _ _ hk
        · rfl
      all_goals rfl

open PixDrill in
/-- C6 witness: a user statistic named MY_STAT leaves the stored mean
untouched. -/
theorem C6_witness :
    entryStat (calc_stats c6Store "item1" [STATS_MEAN]
        [("MY_STAT", c6UserFn)] c9Pt).1 "item1" STATS_MEAN =
      entryStat (calc_stats c6Store "item1" [STATS_MEAN] [] c9Pt).1
        "item1" STATS_MEAN :=
  C6_amended c6Store "item1" [STATS_MEAN] [("MY_STAT", c6UserFn)] c9Pt
    STATS_MEAN (by
      intro p hp
      rw [List.mem_singleton] at hp
      subst hp
      decide)

namespace PixDrill

/-- The exceptions that can escape ItemDriller.read_data: a GDAL
RuntimeError raised while constructing the ImageReader of a plain image
(which the source constructs before its try block), or
drillpoints.ItemDrillerError from argument validation. -/
inductive PyExc where
  | runtimeError
  | itemDrillerError
deriving Repr, DecidableEq

/-- The ignore_val argument of ItemDriller.read_data: None, a single
value, or a per-asset list. -/
inductive IgV where
  | noneV
  | single (v : ℚ)
  | list (l : List ℚ)
deriving Repr, DecidableEq

/-- drillpoints.ItemDriller: the item plus the asset ids to read.  Its
points are carried alongside as one statistics store per point. -/
structure DrillerM where
  item : ItemM
  asset_ids : Option (List String)
deriving Repr, DecidableEq

/-- ImageReader.read_data (image_reader.py lines 267-301) for a batch of
points: walk the points in order, pairing each with the outcome of its
read_roi call — `Except.ok` an ArrayInfo, or `Except.error` for a GDAL
RuntimeError raised during the read.  Each successful read is added to
the point's store; the first error aborts the loop (the exception
propagates), leaving the remaining stores untouched.  Returns the stores
after the call and whether the loop finished without an exception; a
missing outcome (oracle shorter than the batch) counts as an error. -/
def reader_read_data (item : ItemM) (stores : List Store)
    (outs : List (Except Unit ArrInfo)) : List Store × Bool :=
  match stores, outs with
  | [], _ => ([], true)
  | s :: rest, (Except.error _) :: _ => (s :: rest, false)
  | s :: rest, (Except.ok ai) :: orest =>
    let s' := add_data s item ai
    let r := reader_read_data item rest orest
    (s' :: r.1, r.2)
  | s :: rest, [] => (s :: rest, false)

/-- ItemDriller.reset_stats: reset this item's statistics on every
point. -/
def reset_stats (item : ItemM) (stores : List Store) : List Store :=
  stores.map fun s => reset s (some item)

/-- The asset loop of ItemDriller.read_data's pystac branch: for each
asset position, `openRead k` is the outcome of constructing the
ImageReader (gdal.Open can raise) and, when that succeeds, the per-point
read outcomes.  The first RuntimeError anywhere stops the loop (it is
caught by the surrounding try). -/
def drillAssets (item : ItemM)
    (openRead : ℕ → Except Unit (List (Except Unit ArrInfo)))
    (stores : List Store) : List ℕ → List Store × Bool
  | [] => (stores, true)
  | k :: rest =>
    match openRead k with
    | .error _ => (stores, false)
    | .ok outs =>
      let r := reader_read_data item stores outs
      if r.2 then drillAssets item openRead r.1 rest else (r.1, false)

/-- ItemDriller.read_data (drillpoints.py lines 439-525).  For a plain
image the reader is constructed before the try block, so an open failure
propagates as a RuntimeError; the ignore_val-list check then raises
ItemDrillerError; a RuntimeError during the reads is caught, the item's
statistics are reset on every point, and False is returned.  For a pystac
item the asset ids must be set and a list ignore_val must match their
length; reader construction and reads run inside the try, any
RuntimeError resetting the statistics and returning False.  `openRead k`
is the raster-access collaborator's outcome for asset position k (plain
images use position 0). -/
def read_data (dr : DrillerM) (stores : List Store) (iv : IgV)
    (openRead : ℕ → Except Unit (List (Except Unit ArrInfo))) :
    Except PyExc (Bool × List Store) :=
  match dr.item with
  | .image _ _ =>
    match openRead 0 with
    | .error _ => .error .runtimeError
    | .ok outs =>
      match iv with
      | .list _ => .error .itemDrillerError
      | _ =>
        let r := reader_read_data dr.item stores outs
        if r.2 then .ok (true, r.1)
        else .ok (false, reset_stats dr.item r.1)
  | .stac _ =>
    match dr.asset_ids with
    | none => .error .itemDrillerError
    | some aids =>
      let lenOk := match iv with
        | .list l => decide (l.length = aids.length)
        | _ => true
      if lenOk then
        let r := drillAssets dr.item openRead stores
          (List.range aids.length)
        if r.2 then .ok (true, r.1)
        else .ok (false, reset_stats dr.item r.1)
      else .error .itemDrillerError

/-- The number of raw arrays in an entry's STATS_RAW list. -/
def erawLen (e : Entry) : ℕ :=
  match dget e STATS_RAW with
  | some (.rawList l) => l.length
  | _ => 0

/-- The number of array records in an entry's STATS_ARRAYINFO list. -/
def einfoLen (e : Entry) : ℕ :=
  match dget e STATS_ARRAYINFO with
  | some (.infoList l) => l.length
  | _ => 0

/-- The number of raw arrays stored for an item id (0 when absent). -/
def rawLen (s : Store) (id : String) : ℕ :=
  match dget s id with
  | some e => erawLen e
  | none => 0

/-- The number of array records stored for an item id (0 when absent). -/
def infoLen (s : Store) (id : String) : ℕ :=
  match dget s id with
  | some e => einfoLen e
  | none => 0

end PixDrill

namespace PixDrill

lemma mem_reset_stats (item : ItemM) (stores : List Store) :
    ∀ s' ∈ reset_stats item stores,
      dget s' item.id = some (cleanStats item) := by
  intro s' hs'
  simp only [reset_stats, List.mem_map] at hs'
  obtain ⟨s, _, rfl⟩ := hs'
  simp only [reset]
  exact dget_dset_self _ _ _

lemma reader_len (item : ItemM) (stores : List Store)
    (outs : List (Except Unit ArrInfo)) :
    (reader_read_data item stores outs).1.length = stores.length := by
  induction stores generalizing outs with
  | nil => rfl
  | cons s rest ih =>
    cases outs with
    | nil => rfl
    | cons o orest =>
      cases o with
      | error e => rfl
      | ok ai => simp [reader_read_data, ih]

lemma reader_ok (item : ItemM) (stores : List Store)
    (outs : List (Except Unit ArrInfo))
    (hlen : outs.length = stores.length)
    (hok : ∀ o ∈ outs, ∃ ai, o = Except.ok ai) :
    (reader_read_data item stores outs).2 = true := by
  induction stores generalizing outs with
  | nil => rfl
  | cons s rest ih =>
    cases outs with
    | nil => simp at hlen
    | cons o orest =>
      obtain ⟨ai, rfl⟩ := hok o (List.mem_cons_self _ _)
      simp only [reader_read_data]
      exact ih orest (by simpa using hlen)
        fun o ho => hok o (List.mem_cons_of_mem _ ho)

lemma drillAssets_ok (item : ItemM)
    (openRead : ℕ → Except Unit (List (Except Unit ArrInfo)))
    (n : ℕ)
    (hyp : ∀ k, ∃ outs, openRead k = Except.ok outs ∧ outs.length = n ∧
      ∀ o ∈ outs, ∃ ai, o = Except.ok ai) :
    ∀ (ks : List ℕ) (stores : List Store), stores.length = n →
      (drillAssets item openRead stores ks).2 = true ∧
        (drillAssets item openRead stores ks).1.length = n := by
  intro ks
  induction ks with
  | nil => exact fun stores hn => ⟨rfl, hn⟩
  | cons k rest ih =>
    intro stores hn
    obtain ⟨outs, ho, hlen, hok⟩ := hyp k
    have h2 : (reader_read_data item stores outs).2 = true :=
      reader_ok item stores outs (by rw [hlen, hn]) hok
    have h1 : (reader_read_data item stores outs).1.length = n := by
      rw [reader_len, hn]
    simp only [drillAssets, ho, h2, if_true]
    exact ih _ h1

end PixDrill

open PixDrill in
/-- C3: whenever ItemDriller.read_data returns False — which happens when
a GDAL RuntimeError is raised during the reads — every point's statistics
entry for this item's identity has been reset to the clean entry (empty
raw-array and array-record lists): no partially read data survives for
that identity.  Conversely, when every reader construction and every
per-point read succeeds, read_data returns True. -/
theorem C3_failed_read (dr : DrillerM) (stores : List Store) (iv : IgV)
    (openRead : ℕ → Except Unit (List (Except Unit ArrInfo))) :
    (∀ st', read_data dr stores iv openRead = Except.ok (false, st') →
      ∀ s' ∈ st', dget s' dr.item.id = some (cleanStats dr.item)) ∧
    ((∀ k, ∃ outs, openRead k = Except.ok outs ∧
        outs.length = stores.length ∧
        ∀ o ∈ outs, ∃ ai, o = Except.ok ai) →
      ∀ b st', read_data dr stores iv openRead = Except.ok (b, st') →
        b = true) := by
  obtain ⟨item, aids⟩ := dr
  constructor
  · intro st' h
    cases item with
    | image fp iid =>
      simp only [read_data] at h
      rcases ho : openRead 0 with e | outs <;> rw [ho] at h
      · exact absurd h (by simp)
      · rcases iv with _ | v | l <;> simp only at h <;>
        · first
          | exact absurd h (by simp)
          | (split_ifs at h with hr
             · exact absurd h (by simp)
             · rw [Except.ok.injEq, Prod.mk.injEq] at h
               rw [← h.2]
               exact mem_reset_stats _ _)
    | stac iid =>
      rcases aids with _ | as
      · exact absurd h (by simp [read_data])
      · simp only [read_data] at h
        split_ifs at h with hlen hr
        · exact absurd h (by simp)
        · rw [Except.ok.injEq, Prod.mk.injEq] at h
          rw [← h.2]
          exact mem_reset_stats _ _
  · intro hyp b st' h
    cases item with
    | image fp iid =>
      obtain ⟨outs, ho, hlen, hok⟩ := hyp 0
      simp only [read_data, ho] at h
      have h2 : (reader_read_data (ItemM.image fp iid) stores outs).2 =
          true := reader_ok _ stores outs hlen hok
      rcases iv with _ | v | l
      · simp only [h2, if_true] at h
        exact (congrArg Prod.fst (Except.ok.inj h)).symm
      · simp only [h2, if_true] at h
        exact (congrArg Prod.fst (Except.ok.inj h)).symm
      · exact absurd h (by simp)
    | stac iid =>
      rcases aids with _ | as
      · exact absurd h (by simp [read_data])
      · simp only [read_data] at h
        have hda := drillAssets_ok (ItemM.stac iid) openRead stores.length
          (by simpa using hyp) (List.range as.length) stores rfl
        split_ifs at h with hlen hr
        · exact (congrArg Prod.fst (Except.ok.inj h)).symm
        · rw [hda.1] at hr
          exact absurd rfl hr

open PixDrill in
/-- C3 witness: a one-point, one-asset batch whose only read raises a
RuntimeError makes read_data return False with that point's entry for the
item reset to the clean entry. -/
theorem C3_witness :
    dget (reset ([] : Store) (some (ItemM.stac "item1"))) "item1" =
      some (cleanStats (ItemM.stac "item1")) :=
  (C3_failed_read ⟨ItemM.stac "item1", some ["blue"]⟩ [([] : Store)]
      IgV.noneV (fun _ => Except.ok [Except.error ()])).1
    [reset ([] : Store) (some (ItemM.stac "item1"))] (by rfl)
    (reset ([] : Store) (some (ItemM.stac "item1"))) (by simp)

namespace PixDrill

lemma rawLen_congr (s1 s2 : Store) (id : String)
    (h : dget s1 id = dget s2 id) : rawLen s1 id = rawLen s2 id := by
  rw [rawLen, rawLen, h]

lemma infoLen_congr (s1 s2 : Store) (id : String)
    (h : dget s1 id = dget s2 id) : infoLen s1 id = infoLen s2 id := by
  rw [infoLen, infoLen, h]

lemma entry_counts (e0 : Entry) (ai : ArrInfo) :
    erawLen (dset (dset e0 STATS_RAW
        (match dget e0 STATS_RAW with
          | some (.rawList l) => StatVal.rawList (l ++ [ai.arr])
          | _ => StatVal.rawList [ai.arr])) STATS_ARRAYINFO
        (match dget (dset e0 STATS_RAW
            (match dget e0 STATS_RAW with
              | some (.rawList l) => StatVal.rawList (l ++ [ai.arr])
              | _ => StatVal.rawList [ai.arr])) STATS_ARRAYINFO with
          | some (.infoList l) => StatVal.infoList (l ++ [ai])
          | _ => StatVal.infoList [ai])) = erawLen e0 + 1 ∧
    einfoLen (dset (dset e0 STATS_RAW
        (match dget e0 STATS_RAW with
          | some (.rawList l) => StatVal.rawList (l ++ [ai.arr])
          | _ => StatVal.rawList [ai.arr])) STATS_ARRAYINFO
        (match dget (dset e0 STATS_RAW
            (match dget e0 STATS_RAW with
              | some (.rawList l) => StatVal.rawList (l ++ [ai.arr])
              | _ => StatVal.rawList [ai.arr])) STATS_ARRAYINFO with
          | some (.infoList l) => StatVal.infoList (l ++ [ai])
          | _ => StatVal.infoList [ai])) = einfoLen e0 + 1 := by
  have hne : STATS_RAW ≠ STATS_ARRAYINFO := by decide
  have hne' : STATS_ARRAYINFO ≠ STATS_RAW := by decide
  constructor
  · rw [erawLen, dget_dset_ne _ _ _ _ hne, dget_dset_self, erawLen]
    rcases dget e0 STATS_RAW with _ | v
    · rfl
    · rcases v <;> simp
  · rw [einfoLen, dget_dset_self, dget_dset_ne _ _ _ _ hne', einfoLen]
    rcases dget e0 STATS_ARRAYINFO with _ | v
    · rfl
    · rcases v <;> simp

lemma add_data_counts (s : Store) (item : ItemM) (ai : ArrInfo) :
    rawLen (add_data s item ai) item.id = rawLen s item.id + 1 ∧
    infoLen (add_data s item ai) item.id = infoLen s item.id + 1 := by
  rcases hdg : dget s item.id with _ | e
  · simp only [add_data, hdg, Option.getD, rawLen, infoLen, dget_dset_self]
    exact entry_counts (cleanStats item) ai
  · simp only [add_data, hdg, Option.getD, rawLen, infoLen, dget_dset_self]
    exact entry_counts e ai

lemma add_data_other (s : Store) (item : ItemM) (ai : ArrInfo)
    (id : String) (h : id ≠ item.id) :
    dget (add_data s item ai) id = dget s id := by
  simp only [add_data]
  exact dget_dset_ne _ _ _ _ h

/-- The per-point relation of the counting argument: the new store holds
n more raw arrays and n more array records for the item than the old. -/
def CntR (id : String) (n : ℕ) (s' s : Store) : Prop :=
  rawLen s' id = rawLen s id + n ∧ infoLen s' id = infoLen s id + n

lemma cntR_refl (id : String) (stores : List Store) :
    List.Forall₂ (CntR id 0) stores stores := by
  induction stores with
  | nil => exact List.Forall₂.nil
  | cons s rest ih => exact List.Forall₂.cons ⟨rfl, rfl⟩ ih

lemma cntR_trans (id : String) (m n : ℕ) (a b c : List Store)
    (h1 : List.Forall₂ (CntR id m) a b) (h2 : List.Forall₂ (CntR id n) b c) :
    List.Forall₂ (CntR id (m + n)) a c := by
  induction h1 generalizing c with
  | nil =>
    cases h2
    exact List.Forall₂.nil
  | cons hr _ ih =>
    cases h2 with
    | cons hr2 hrest2 =>
      refine List.Forall₂.cons ⟨?_, ?_⟩ (ih _ hrest2)
      · rw [hr.1, hr2.1]
        omega
      · rw [hr.2, hr2.2]
        omega

lemma reader_counts (item : ItemM) (stores : List Store)
    (outs : List (Except Unit ArrInfo))
    (h : (reader_read_data item stores outs).2 = true) :
    List.Forall₂ (CntR item.id 1) (reader_read_data item stores outs).1
      stores := by
  induction stores generalizing outs with
  | nil => exact List.Forall₂.nil
  | cons s rest ih =>
    cases outs with
    | nil => exact absurd h (by simp [reader_read_data])
    | cons o orest =>
      cases o with
      | error e => exact absurd h (by simp [reader_read_data])
      | ok ai =>
        simp only [reader_read_data] at h ⊢
        exact List.Forall₂.cons (add_data_counts s item ai) (ih orest h)

lemma drillAssets_counts (item : ItemM)
    (openRead : ℕ → Except Unit (List (Except Unit ArrInfo))) :
    ∀ (ks : List ℕ) (stores : List Store),
      (drillAssets item openRead stores ks).2 = true →
      List.Forall₂ (CntR item.id ks.length)
        (drillAssets item openRead stores ks).1 stores := by
  intro ks
  induction ks with
  | nil => exact fun stores _ => cntR_refl _ _
  | cons k rest ih =>
    intro stores h
    rcases ho : openRead k with e | outs
    · rw [drillAssets, ho] at h
      exact absurd h (by simp)
    · rw [drillAssets, ho] at h ⊢
      dsimp only at h ⊢
      cases hr2 : (reader_read_data item stores outs).2 with
      | false =>
        rw [hr2, if_neg (by simp)] at h
        exact absurd h (by simp)
      | true =>
        rw [hr2, if_pos rfl] at h
        rw [if_pos rfl]
        have step := reader_counts item stores outs hr2
        have tail := ih _ h
        have comb := cntR_trans item.id rest.length 1 _ _ _ tail step
        simpa [List.length_cons, Nat.add_comm] using comb

/-- The number of channels one read_data call reads: one for a plain
image, one per asset id for a pystac item. -/
def numAssets (dr : DrillerM) : ℕ :=
  match dr.item with
  | .image _ _ => 1
  | .stac _ => (dr.asset_ids.getD []).length

end PixDrill

namespace PixDrill

/-- The store operations PointStats exposes for populating and clearing
drilled data: add_data, reset with an item, reset of everything. -/
inductive StOp where
  | addOp (item : ItemM) (ai : ArrInfo)
  | resetItemOp (item : ItemM)
  | resetAllOp

/-- Apply one store operation. -/
def applyOp (s : Store) : StOp → Store
  | .addOp item ai => add_data s item ai
  | .resetItemOp item => reset s (some item)
  | .resetAllOp => reset s none

/-- Apply a sequence of store operations to the empty store a fresh
PointStats starts from. -/
def applyOps (ops : List StOp) : Store := ops.foldl applyOp []

lemma dget_mapVal {f : Entry → Entry} (s : Store) (id : String) :
    dget (s.map fun p => (p.1, f p.2)) id = (dget s id).map f := by
  induction s with
  | nil => rfl
  | cons p rest ih =>
    by_cases hp : p.1 = id
    · simp [dget, hp]
    · simp [dget, hp, ih]

lemma inv_applyOp (s : Store) (h : ∀ id, rawLen s id = infoLen s id)
    (op : StOp) :
    ∀ id, rawLen (applyOp s op) id = infoLen (applyOp s op) id := by
  intro id
  cases op with
  | addOp item ai =>
    by_cases hid : id = item.id
    · subst hid
      have hc := add_data_counts s item ai
      rw [applyOp, hc.1, hc.2, h]
    · have hd := add_data_other s item ai id hid
      rw [applyOp, rawLen_congr _ s _ hd, infoLen_congr _ s _ hd, h]
  | resetItemOp item =>
    by_cases hid : id = item.id
    · subst hid
      rw [applyOp, rawLen, infoLen, reset, dget_dset_self]
      rfl
    · rw [applyOp,
        rawLen_congr _ s _ (by rw [reset]; exact dget_dset_ne _ _ _ _ hid),
        infoLen_congr _ s _ (by rw [reset]; exact dget_dset_ne _ _ _ _ hid),
        h]
  | resetAllOp =>
    rw [applyOp, rawLen, infoLen, reset, dget_mapVal]
    rcases dget s id with _ | e
    · rfl
    · dsimp only [Option.map]
      rw [resetEntry]
      rcases dget e ITEM_KEY with _ | v <;> rfl

lemma inv_foldl (ops : List StOp) :
    ∀ (s : Store), (∀ id, rawLen s id = infoLen s id) →
      ∀ id, rawLen (ops.foldl applyOp s) id =
        infoLen (ops.foldl applyOp s) id := by
  induction ops with
  | nil => exact fun s h => h
  | cons op rest ih =>
    intro s h
    exact ih (applyOp s op) (inv_applyOp s h op)

end PixDrill

open PixDrill in
/-- C7: (1) a resolved window with nonpositive width or height makes
read_roi return, without error, a record whose masked array is explicitly
empty — the point is not skipped; (2) a successful batch read
(read_data returning True) grows every point's raw-array and array-record
counts for this item's identity by exactly one per channel read (one per
asset, one for a plain image); (3) after any sequence of add_data and
reset operations starting from a fresh store, the raw-array and
array-record lists for every image identity have equal length. -/
theorem C7_records :
    (∀ (g : ImgGrid) (rc : ℕ)
      (rb : ℕ → ℤ → ℤ → ℤ → ℤ → List (List ℚ))
      (nd : List (Option ℚ)) (aid : Option String) (shape : String)
      (c_x c_y buf : ℚ) (iv : Option ℚ),
      ((get_pix_window g c_x c_y buf).win_xsize ≤ 0 ∨
        (get_pix_window g c_x c_y buf).win_ysize ≤ 0) →
      (read_roi g rc rb nd aid shape c_x c_y buf iv).2 = none ∧
        (read_roi g rc rb nd aid shape c_x c_y buf iv).1.arr =
          ⟨[], []⟩) ∧
    (∀ (dr : DrillerM) (stores : List Store) (iv : IgV)
      (openRead : ℕ → Except Unit (List (Except Unit ArrInfo)))
      (st' : List Store),
      read_data dr stores iv openRead = Except.ok (true, st') →
      List.Forall₂ (CntR dr.item.id (numAssets dr)) st' stores) ∧
    (∀ (ops : List StOp) (id : String),
      rawLen (applyOps ops) id = infoLen (applyOps ops) id) := by
  refine ⟨?_, ?_, ?_⟩
  · intro g rc rb nd aid shape c_x c_y buf iv hwin
    have hcond : ¬(0 < (get_pix_window g c_x c_y buf).win_xsize ∧
        0 < (get_pix_window g c_x c_y buf).win_ysize) := by
      rcases hwin with h | h <;> omega
    simp only [read_roi, readWindow, if_neg hcond]
    exact ⟨rfl, rfl⟩
  · intro dr stores iv openRead st' h
    obtain ⟨item, aids⟩ := dr
    cases item with
    | image fp iid =>
      simp only [read_data] at h
      rcases ho : openRead 0 with e | outs <;> rw [ho] at h
      · exact absurd h (by simp)
      · rcases iv with _ | v | l
        · dsimp only at h
          cases hr2 : (reader_read_data (ItemM.image fp iid) stores outs).2
          · rw [hr2] at h
            simp only [Bool.false_eq_true, if_false] at h
            exact absurd (congrArg Prod.fst (Except.ok.inj h)).symm
              (by simp)
          · rw [hr2, if_pos rfl] at h
            injection h with h1
            injection h1 with hb hs
            rw [← hs]
            exact reader_counts _ stores outs hr2
        · dsimp only at h
          cases hr2 : (reader_read_data (ItemM.image fp iid) stores outs).2
          · rw [hr2] at h
            simp only [Bool.false_eq_true, if_false] at h
            exact absurd (congrArg Prod.fst (Except.ok.inj h)).symm
              (by simp)
          · rw [hr2, if_pos rfl] at h
            injection h with h1
            injection h1 with hb hs
            rw [← hs]
            exact reader_counts _ stores outs hr2
        · exact absurd h (by simp)
    | stac iid =>
      rcases aids with _ | as
      · exact absurd h (by simp [read_data])
      · simp only [read_data] at h
        split_ifs at h with hlen hr2
        · injection h with h1
          injection h1 with hb hs
          rw [← hs]
          have hc := drillAssets_counts (ItemM.stac iid) openRead
            (List.range as.length) stores hr2
          simpa [numAssets] using hc
        · injection h with h1
          injection h1 with hb hs
          exact absurd hb (by simp)
  · intro ops id
    exact inv_foldl ops [] (fun _ => rfl) id

open PixDrill in
/-- C7 witness: a point whose ROI misses the grid produces an explicitly
empty record from read_roi rather than being skipped. -/
theorem C7_witness :
    (read_roi c1Grid 1 c10Read [some 0] none ROI_SHP_SQUARE 20 20 1
        none).1.arr = ⟨[], []⟩ :=
  (C7_records.1 c1Grid 1 c10Read [some 0] none ROI_SHP_SQUARE 20 20 1 none
    (by
      norm_num [get_pix_window, preUlPx, preUlPy, preLrPx, preLrPy,
        wld2pix, c1Grid])).2
